import Mathlib

/-!
Verification of the `visibility-attribute` crate's token-rewriting core.

The crate's whole logic lives in `src/lib.rs`, in the `impl_macro!`
macro body, which is expanded twice: once over `proc_macro` token
streams (`inner_set_visibility` / `remove_visibility`) and once over
`proc_macro2` token streams (`inner_set_visibility2` /
`remove_visibility2` in `src/tests.rs`).

We shallowly embed the token model: a `TokenTree` is an identifier,
a delimited group (with a delimiter kind and an inner token list),
a punctuation character, or a literal.  Every token carries a span,
modelled as a `Nat`, so that span-agnosticism can be stated.  Token
streams are `List TokenTree`.
-/

namespace VisibilityAttribute

/-- Delimiter kinds of `proc_macro::Delimiter`. -/
inductive Delimiter where
  | parenthesis
  | brace
  | bracket
  | invisible
  deriving DecidableEq, Repr

/-- Spacing of a punctuation token (`proc_macro::Spacing`). -/
inductive Spacing where
  | alone
  | joint
  deriving DecidableEq, Repr

/-- Token trees of `proc_macro::TokenTree`.  Identifier and literal
text is the token's `to_string`; the last `Nat` field of each
constructor is the token's span (source-position metadata). -/
inductive TokenTree where
  | group (delimiter : Delimiter) (stream : List TokenTree) (span : Nat)
  | ident (text : String) (span : Nat)
  | punct (ch : Char) (spacing : Spacing) (span : Nat)
  | literal (text : String) (span : Nat)

/-- Predicate of the first `next_if` in `remove_visibility`
(src/lib.rs lines 105-108): the token is an identifier whose
`to_string` equals `"pub"`. -/
def isPubIdent : TokenTree → Bool
  | .ident y _ => y == "pub"
  | _ => false

/-- Predicate of the second `next_if` in `remove_visibility`
(src/lib.rs lines 114-117): the token is a group whose delimiter
is `Delimiter::Parenthesis`. -/
def isParenGroup : TokenTree → Bool
  | .group d _ _ => d == Delimiter.parenthesis
  | _ => false

/-- Embedding of `remove_visibility` (src/lib.rs lines 99-120).
The Rust code peeks at the first token: if it is not the identifier
`pub` the whole stream is returned unchanged; otherwise `pub` is
consumed and a following parenthesis-delimited group, if present,
is consumed as well. -/
def remove_visibility (input : List TokenTree) : List TokenTree :=
  match input with
  | [] => []
  | t :: rest =>
    if isPubIdent t then
      match rest with
      | [] => []
      | t₂ :: rest₂ => if isParenGroup t₂ then rest₂ else t₂ :: rest₂
    else t :: rest

/-- Embedding of `inner_set_visibility` (src/lib.rs lines 86-93):
`out_stream` starts as the macro input and is extended with
`remove_visibility` of the annotated item. -/
def inner_set_visibility (input annotated_item : List TokenTree) : List TokenTree :=
  input ++ remove_visibility annotated_item

/-- Embedding of `remove_visibility2`, the `proc_macro2` expansion of
the same `impl_macro!` body (src/tests.rs line 6).  The expansion is
token-for-token the body of src/lib.rs lines 99-120. -/
def remove_visibility2 (input : List TokenTree) : List TokenTree :=
  match input with
  | [] => []
  | t :: rest =>
    if isPubIdent t then
      match rest with
      | [] => []
      | t₂ :: rest₂ => if isParenGroup t₂ then rest₂ else t₂ :: rest₂
    else t :: rest

/-- Embedding of `inner_set_visibility2`, the `proc_macro2` expansion
of the `impl_macro!` body (src/tests.rs line 6). -/
def inner_set_visibility2 (input annotated_item : List TokenTree) : List TokenTree :=
  input ++ remove_visibility2 annotated_item

/-- A stream starts with the identifier `pub`. -/
def startsWithPub : List TokenTree → Bool
  | [] => false
  | t :: _ => isPubIdent t

/-- A stream starts with a parenthesis-delimited group. -/
def headIsParenGroup : List TokenTree → Bool
  | [] => false
  | t :: _ => isParenGroup t

mutual

/-- Erase the span of a token and, recursively, of every token inside
a group: the span-free projection of a token. -/
def eraseSpan : TokenTree → TokenTree
  | .group d s _ => .group d (eraseSpanList s) 0
  | .ident y _ => .ident y 0
  | .punct c sp _ => .punct c sp 0
  | .literal y _ => .literal y 0

/-- Erase all spans in a token stream. -/
def eraseSpanList : List TokenTree → List TokenTree
  | [] => []
  | t :: ts => eraseSpan t :: eraseSpanList ts

end

/-- Replace the inner stream of every top-level group by the image
under `f`, leaving delimiter, span and all other tokens untouched. -/
def mapInner (f : List TokenTree → List TokenTree) : TokenTree → TokenTree
  | .group d s sp => .group d (f s) sp
  | t => t

theorem eraseSpanList_eq_map (xs : List TokenTree) :
    eraseSpanList xs = xs.map eraseSpan := by
  induction xs with
  | nil => rfl
  | cons t ts ih => simp [eraseSpanList, ih]

theorem isPubIdent_eraseSpan (t : TokenTree) :
    isPubIdent (eraseSpan t) = isPubIdent t := by
  cases t <;> rfl

theorem isParenGroup_eraseSpan (t : TokenTree) :
    isParenGroup (eraseSpan t) = isParenGroup t := by
  cases t <;> rfl

theorem isPubIdent_mapInner (f : List TokenTree → List TokenTree) (t : TokenTree) :
    isPubIdent (mapInner f t) = isPubIdent t := by
  cases t <;> rfl

theorem isParenGroup_mapInner (f : List TokenTree → List TokenTree) (t : TokenTree) :
    isParenGroup (mapInner f t) = isParenGroup t := by
  cases t <;> rfl

/-- `remove_visibility` commutes with mapping any token transformation
that does not change whether a token is the identifier `pub` nor
whether it is a parenthesis group. -/
theorem remove_visibility_map (f : TokenTree → TokenTree)
    (hp : ∀ t, isPubIdent (f t) = isPubIdent t)
    (hg : ∀ t, isParenGroup (f t) = isParenGroup t)
    (xs : List TokenTree) :
    remove_visibility (xs.map f) = (remove_visibility xs).map f := by
  match xs with
  | [] => rfl
  | t :: rest =>
    simp only [List.map_cons, remove_visibility, hp t]
    by_cases h : isPubIdent t
    · simp only [h, if_true]
      match rest with
      | [] => rfl
      | t₂ :: rest₂ =>
        simp only [List.map_cons, hg t₂]
        by_cases h₂ : isParenGroup t₂ <;> simp [h₂]
    · simp [h]

/-- A stream not starting with the identifier `pub` is returned
unchanged by `remove_visibility`. -/
theorem remove_visibility_eq_self (xs : List TokenTree)
    (h : startsWithPub xs = false) :
    remove_visibility xs = xs := by
  match xs with
  | [] => rfl
  | t :: rest =>
    simp only [startsWithPub] at h
    simp [remove_visibility, h]

theorem eraseSpanList_append (xs ys : List TokenTree) :
    eraseSpanList (xs ++ ys) = eraseSpanList xs ++ eraseSpanList ys := by
  simp [eraseSpanList_eq_map]

/-- Span erasure commutes with `remove_visibility`. -/
theorem eraseSpanList_remove_visibility (xs : List TokenTree) :
    eraseSpanList (remove_visibility xs) = remove_visibility (eraseSpanList xs) := by
  rw [eraseSpanList_eq_map, eraseSpanList_eq_map]
  exact (remove_visibility_map eraseSpan isPubIdent_eraseSpan isParenGroup_eraseSpan xs).symm

/-- C1: for every replacement token sequence and every item token
sequence, `inner_set_visibility` returns exactly the replacement
sequence concatenated with `remove_visibility` of the item: the
replacement tokens appear first and verbatim, followed by the item
with its leading visibility qualifier (if any) removed. -/
theorem set_visibility_is_concat (input annotated_item : List TokenTree) :
    inner_set_visibility input annotated_item =
      input ++ remove_visibility annotated_item :=
  rfl

/-- C2: whenever the first token is the identifier `pub` immediately
followed by a parenthesis-delimited group, `remove_visibility`
consumes both tokens, regardless of the group's contents and spans,
and returns the remaining tokens unchanged in order. -/
theorem remove_visibility_pub_paren (s₁ s₂ : Nat) (inner rest : List TokenTree) :
    remove_visibility
      (TokenTree.ident "pub" s₁ ::
        TokenTree.group Delimiter.parenthesis inner s₂ :: rest) = rest := by
  simp [remove_visibility, isPubIdent, isParenGroup]

/-- C3: whenever the first token is the identifier `pub` and the rest
of the sequence is empty or does not start with a parenthesis group,
`remove_visibility` consumes only the `pub` token and leaves every
following token in place. -/
theorem remove_visibility_pub_only (s : Nat) (rest : List TokenTree)
    (h : headIsParenGroup rest = false) :
    remove_visibility (TokenTree.ident "pub" s :: rest) = rest := by
  match rest with
  | [] => rfl
  | t₂ :: rest₂ =>
    simp only [headIsParenGroup] at h
    simp [remove_visibility, isPubIdent, h]

/-- Witness for C3 at a concrete input: `pub fn` loses only `pub`,
and `pub` at end of sequence loses only `pub`. -/
theorem remove_visibility_pub_only_witness :
    headIsParenGroup [TokenTree.ident "fn" 7] = false ∧
    remove_visibility [TokenTree.ident "pub" 3, TokenTree.ident "fn" 7] =
      [TokenTree.ident "fn" 7] ∧
    remove_visibility [TokenTree.ident "pub" 3] = [] :=
  ⟨by decide, remove_visibility_pub_only 3 [TokenTree.ident "fn" 7] (by decide),
    remove_visibility_pub_only 3 [] (by decide)⟩

/-- C4: a sequence whose first token is not an identifier with text
`pub` — the empty sequence included — is returned unchanged by
`remove_visibility`. -/
theorem remove_visibility_noop (xs : List TokenTree)
    (h : startsWithPub xs = false) :
    remove_visibility xs = xs :=
  remove_visibility_eq_self xs h

/-- Witness for C4 at a concrete input: a bare literal is untouched. -/
theorem remove_visibility_noop_witness :
    startsWithPub [TokenTree.literal "5" 0] = false ∧
    remove_visibility [TokenTree.literal "5" 0] = [TokenTree.literal "5" 0] :=
  ⟨by decide, remove_visibility_noop [TokenTree.literal "5" 0] (by decide)⟩

/-- C5 counterexample: the round-trip identity fails for an arbitrary
prior replacement: with v = [], w = [`x`], b = [], the left side is
[`x`] and the right side is []. -/
theorem set_visibility_roundtrip_counterexample :
    ¬ (∀ v w b : List TokenTree,
        inner_set_visibility v (inner_set_visibility w b) =
          inner_set_visibility v b) := by
  intro h
  have hx := h [] [TokenTree.ident "x" 0] []
  simp [inner_set_visibility, remove_visibility, isPubIdent] at hx

/-- C5 amended: the round trip holds for every prior replacement of
the exact visibility-qualifier form `pub(...)` — the identifier `pub`
followed by a parenthesis group, with arbitrary contents and spans —
for all replacements v and all items b. -/
theorem set_visibility_roundtrip_qualifier
    (v b : List TokenTree) (s₁ s₂ : Nat) (inner : List TokenTree) :
    inner_set_visibility v
      (inner_set_visibility
        [TokenTree.ident "pub" s₁,
          TokenTree.group Delimiter.parenthesis inner s₂] b) =
      inner_set_visibility v b := by
  have h : remove_visibility
      (TokenTree.ident "pub" s₁ ::
        TokenTree.group Delimiter.parenthesis inner s₂ :: remove_visibility b) =
      remove_visibility b := by
    simp [remove_visibility, isPubIdent, isParenGroup]
  simp [inner_set_visibility, h]

/-- C6 counterexample: stripping is not idempotent on all sequences:
for x = [`pub`, `pub`] the first strip leaves [`pub`] and the second
strip empties it. -/
theorem strip_idempotent_counterexample :
    ¬ (∀ xs : List TokenTree,
        remove_visibility (remove_visibility xs) = remove_visibility xs) := by
  intro h
  have hx := h [TokenTree.ident "pub" 0, TokenTree.ident "pub" 1]
  simp [remove_visibility, isPubIdent, isParenGroup] at hx

/-- C6 amended: stripping is idempotent on every sequence whose
stripped form does not itself start with the identifier `pub` — in
particular on already-stripped input. -/
theorem strip_idempotent_stripped (xs : List TokenTree)
    (h : startsWithPub (remove_visibility xs) = false) :
    remove_visibility (remove_visibility xs) = remove_visibility xs :=
  remove_visibility_eq_self _ h

/-- Witness for the amended C6 at a concrete input. -/
theorem strip_idempotent_stripped_witness :
    startsWithPub (remove_visibility
      [TokenTree.ident "pub" 0, TokenTree.ident "fn" 1]) = false ∧
    remove_visibility (remove_visibility
      [TokenTree.ident "pub" 0, TokenTree.ident "fn" 1]) =
      remove_visibility [TokenTree.ident "pub" 0, TokenTree.ident "fn" 1] :=
  ⟨by decide,
    strip_idempotent_stripped [TokenTree.ident "pub" 0, TokenTree.ident "fn" 1]
      (by decide)⟩

/-- C7: both functions are total over all token sequences: every
input pair yields a result sequence.  The embedding mirrors the Rust
source, which contains no fallible operation (no panic, unwrap or
error path), so both are plain total functions and no `Option` or
`Except` result type is needed. -/
theorem set_visibility_total (v b : List TokenTree) :
    (∃ s : List TokenTree, remove_visibility b = s) ∧
    (∃ r : List TokenTree, inner_set_visibility v b = r) :=
  ⟨⟨remove_visibility b, rfl⟩, ⟨inner_set_visibility v b, rfl⟩⟩

/-- C8: `remove_visibility` never inspects group contents: replacing
the inner stream of every top-level group by any transformation of it
commutes with stripping, so consumption depends only on position and
delimiter kind; and a leading group — whatever its contents, e.g.
starting with `pub` — is left fully intact. -/
theorem remove_visibility_groups_opaque :
    (∀ (f : List TokenTree → List TokenTree) (xs : List TokenTree),
        remove_visibility (xs.map (mapInner f)) =
          (remove_visibility xs).map (mapInner f)) ∧
    (∀ (d : Delimiter) (inner : List TokenTree) (sp : Nat)
        (rest : List TokenTree),
        remove_visibility (TokenTree.group d inner sp :: rest) =
          TokenTree.group d inner sp :: rest) := by
  refine ⟨fun f xs => ?_, fun d inner sp rest => rfl⟩
  exact remove_visibility_map (mapInner f) (isPubIdent_mapInner f)
    (isParenGroup_mapInner f) xs

/-- C9: the rewrite is agnostic to span metadata: two pairs of inputs
that agree after erasing all spans (outside and inside groups) produce
outputs that agree after erasing all spans. -/
theorem set_visibility_span_agnostic (v₁ v₂ b₁ b₂ : List TokenTree)
    (hv : eraseSpanList v₁ = eraseSpanList v₂)
    (hb : eraseSpanList b₁ = eraseSpanList b₂) :
    eraseSpanList (inner_set_visibility v₁ b₁) =
      eraseSpanList (inner_set_visibility v₂ b₂) := by
  unfold inner_set_visibility
  rw [eraseSpanList_append, eraseSpanList_append, hv,
    eraseSpanList_remove_visibility, eraseSpanList_remove_visibility, hb]

/-- Witness for C9 at concrete inputs differing only in spans,
including a span inside a group. -/
theorem set_visibility_span_agnostic_witness :
    eraseSpanList [TokenTree.ident "pub" 1] =
      eraseSpanList [TokenTree.ident "pub" 2] ∧
    eraseSpanList [TokenTree.ident "pub" 3,
        TokenTree.group Delimiter.parenthesis [TokenTree.ident "crate" 4] 5,
        TokenTree.ident "fn" 6] =
      eraseSpanList [TokenTree.ident "pub" 7,
        TokenTree.group Delimiter.parenthesis [TokenTree.ident "crate" 8] 9,
        TokenTree.ident "fn" 10] ∧
    eraseSpanList (inner_set_visibility [TokenTree.ident "pub" 1]
        [TokenTree.ident "pub" 3,
          TokenTree.group Delimiter.parenthesis [TokenTree.ident "crate" 4] 5,
          TokenTree.ident "fn" 6]) =
      eraseSpanList (inner_set_visibility [TokenTree.ident "pub" 2]
        [TokenTree.ident "pub" 7,
          TokenTree.group Delimiter.parenthesis [TokenTree.ident "crate" 8] 9,
          TokenTree.ident "fn" 10]) :=
  ⟨rfl, rfl, set_visibility_span_agnostic _ _ _ _ rfl rfl⟩

/-- C10: the `proc_macro` expansion and the `proc_macro2` expansion of
the `impl_macro!` body compute identical functions over the abstract
token model: on every input they produce the same output. -/
theorem both_expansions_agree :
    (∀ xs : List TokenTree, remove_visibility2 xs = remove_visibility xs) ∧
    (∀ v b : List TokenTree,
        inner_set_visibility2 v b = inner_set_visibility v b) :=
  ⟨fun _ => rfl, fun _ _ => rfl⟩

end VisibilityAttribute
